import Mathlib

/-!
Shallow embedding of the two scripts in `tools/` of the `noahs-game` repository:

* `art_pipeline.py` — image post-processing (chroma key removal, trim to
  content, nearest-neighbor resize, sprite-sheet slicing, horizontal mirror).
  Images are modelled as rectangular lists of rows of RGBA pixels, exactly the
  `width × height × RGBA` byte buffer the script manipulates through
  PIL/numpy.  Each file-to-file operation of the script is modelled as the
  pure image-to-image transform it performs between `Image.open` and `save`.

* `generate_beans.py` — the one-shot Gemini generation script, modelled as a
  function of its two external inputs (the lines of the `.env` file and the
  outcome of the single HTTP call) to an outcome record (exit code, written
  file, printed messages).

Numeric conventions: pixel channels are `Nat` (uint8 values 0..255); the
chroma-key tolerance is `Int`, matching the Python `int` that is compared
against the uint8 channels (numpy compares uint8 arrays with Python ints
exactly, so `Int` comparisons are the faithful model).  The float Euclidean
distance `sqrt((r-255)^2 + g^2 + (b-255)^2)` is modelled exactly through its
square `sqDistMagenta` (an integer): all comparisons the code makes against
it (`dist < 2*tolerance`) and the truncated edge alpha
`uint8(clip(dist / (2 t) * 255, 0, 255))` are expressed with integer
arithmetic and `Nat.sqrt`, which agree with exact real arithmetic.
-/

/-- One RGBA pixel, channels as in the numpy uint8 buffer. -/
structure Pixel where
  r : Nat
  g : Nat
  b : Nat
  a : Nat
deriving DecidableEq, Repr

/-- An image: a rectangular pixel buffer, as rows of pixels.
`width` is carried explicitly so that it is defined even for zero rows;
`hrect` states every row has that width. -/
structure Image where
  width : Nat
  rows : List (List Pixel)
  hrect : ∀ r ∈ rows, r.length = width

/-- Image height, the number of rows. -/
def Image.height (img : Image) : Nat := img.rows.length

/-- The pixel at column `x`, row `y`; out-of-range reads give the zero pixel
(this is how PIL's `crop` pads boxes that extend beyond the image). -/
def Image.pixAt (img : Image) (x y : Nat) : Pixel :=
  (img.rows.getD y []).getD x ⟨0, 0, 0, 0⟩

/-! ## chroma_key_magenta (art_pipeline.py lines 21-57) -/

/-- The core magenta mask:
`(r > 255 - tolerance) & (g < tolerance) & (b > 255 - tolerance)`. -/
def magentaMask (tolerance : Int) (p : Pixel) : Prop :=
  (p.r : Int) > 255 - tolerance ∧ (p.g : Int) < tolerance ∧
    (p.b : Int) > 255 - tolerance

instance (tolerance : Int) (p : Pixel) : Decidable (magentaMask tolerance p) :=
  inferInstanceAs (Decidable (_ ∧ _ ∧ _))

/-- The squared Euclidean distance to pure magenta `(255, 0, 255)`:
the exact value of `magenta_distance ** 2` where
`magenta_distance = sqrt((r-255)^2 + g^2 + (b-255)^2)`. -/
def sqDistMagenta (p : Pixel) : Int :=
  ((p.r : Int) - 255) ^ 2 + (p.g : Int) ^ 2 + ((p.b : Int) - 255) ^ 2

/-- The edge mask `(magenta_distance < tolerance * 2) & ~magenta_mask`,
without the `~magenta_mask` part (that is split off in `chromaPixel`).
`sqrt D < 2 t` over the reals is `0 < t ∧ D < (2 t)^2`. -/
def edgeMask (tolerance : Int) (p : Pixel) : Prop :=
  0 < tolerance ∧ sqDistMagenta p < 4 * tolerance * tolerance

instance (tolerance : Int) (p : Pixel) : Decidable (edgeMask tolerance p) :=
  inferInstanceAs (Decidable (_ ∧ _))

/-- The edge alpha `np.clip(dist / (tolerance * 2) * 255, 0, 255)` truncated
to uint8, computed exactly: for `t > 0`,
`⌊255 * sqrt D / (2 t)⌋ = Nat.sqrt (255^2 * D / (2 t)^2)`. -/
def edgeAlpha (tolerance : Int) (p : Pixel) : Nat :=
  min 255
    (Nat.sqrt (65025 * (sqDistMagenta p).toNat /
      ((2 * tolerance.toNat) * (2 * tolerance.toNat))))

/-- The per-pixel action of `chroma_key_magenta`: core-magenta pixels are
overwritten with `[0, 0, 0, 0]`; edge pixels get the distance-proportional
alpha and `g` bumped by 30 (clipped); all other pixels are untouched. -/
def chromaPixel (tolerance : Int) (p : Pixel) : Pixel :=
  if magentaMask tolerance p then ⟨0, 0, 0, 0⟩
  else if edgeMask tolerance p then
    ⟨p.r, min (p.g + 30) 255, p.b, edgeAlpha tolerance p⟩
  else p

/-- `chroma_key_magenta` applied to a whole image: the numpy masked
assignments act independently on every pixel. -/
def chromaKeyMagenta (tolerance : Int) (img : Image) : Image where
  width := img.width
  rows := img.rows.map (List.map (chromaPixel tolerance))
  hrect := by
    intro r hr
    rcases List.mem_map.mp hr with ⟨r0, hr0, rfl⟩
    simp [img.hrect r0 hr0]

/-- A 1×1 test image holding a single pure-magenta opaque pixel. -/
def magentaDot : Image where
  width := 1
  rows := [[⟨255, 0, 255, 255⟩]]
  hrect := by intro r hr; simp at hr; simp [hr]

/-- A 1×1 fully transparent test image. -/
def clearDot : Image where
  width := 1
  rows := [[⟨5, 6, 7, 0⟩]]
  hrect := by intro r hr; simp at hr; simp [hr]

/-- A 3×1 test image with three distinct pixels (used as a sprite sheet). -/
def stripThree : Image where
  width := 3
  rows := [[⟨10, 0, 0, 255⟩, ⟨0, 20, 0, 255⟩, ⟨0, 0, 30, 255⟩]]
  hrect := by intro r hr; simp at hr; simp [hr]

/-! ## crop, getbbox, trim_to_content (art_pipeline.py lines 60-76) -/

/-- The `w × h` image whose pixel `(x, y)` is `f x y`. -/
def gridImage (w h : Nat) (f : Nat → Nat → Pixel) : Image where
  width := w
  rows := (List.range h).map (fun y => (List.range w).map (fun x => f x y))
  hrect := by
    intro row hrow
    rcases List.mem_map.mp hrow with ⟨i, _, rfl⟩
    simp

/-- PIL's `Image.crop((l, u, r, d))`: the `(r - l) × (d - u)` image whose
pixel `(j, i)` is the source pixel `(l + j, u + i)`; parts of the box
outside the source read as zero pixels (PIL pads with 0). -/
def Image.crop (img : Image) (l u r d : Nat) : Image :=
  gridImage (r - l) (d - u) (fun j i => img.pixAt (l + j) (u + i))

/-- The coordinates `(x, y)` of the pixels PIL's `getbbox()` counts as
content: pixels with non-zero alpha (RGBA images are trimmed on the alpha
channel). -/
def Image.contentCoords (img : Image) : List (Nat × Nat) :=
  (List.range img.height).flatMap (fun y =>
    ((List.range img.width).filter (fun x => (img.pixAt x y).a ≠ 0)).map
      (fun x => (x, y)))

/-- PIL's `img.getbbox()`: `none` when the image has no content, otherwise
`some (left, upper, right, lower)`, the smallest box containing every
content pixel (`right`/`lower` exclusive). -/
def Image.getbbox (img : Image) : Option (Nat × Nat × Nat × Nat) :=
  match img.contentCoords with
  | [] => none
  | c :: cs =>
    some ((((c :: cs).map Prod.fst).foldr min c.1),
          (((c :: cs).map Prod.snd).foldr min c.2),
          (((c :: cs).map Prod.fst).foldr max 0) + 1,
          (((c :: cs).map Prod.snd).foldr max 0) + 1)

/-- `trim_to_content`: save the image unchanged if `getbbox` is falsy,
otherwise crop to the bounding box expanded by `padding` and clamped to the
image (`max(0, ·)` on the left/top is `Nat` truncated subtraction). -/
def trimToContent (padding : Nat) (img : Image) : Image :=
  match img.getbbox with
  | none => img
  | some (l, u, r, d) =>
    img.crop (l - padding) (u - padding)
      (min img.width (r + padding)) (min img.height (d + padding))

/-! ## resize_nearest (art_pipeline.py lines 79-84) -/

/-- The source index PIL's nearest-neighbor resize samples for output index
`i`: `⌊(i + 0.5) * srcLen / dstLen⌋`, computed as an exact `Nat` division. -/
def nearestIndex (srcLen dstLen i : Nat) : Nat :=
  (2 * i + 1) * srcLen / (2 * dstLen)

/-- `resize_nearest`: the `w × h` image whose pixel `(x, y)` is the source
pixel at the nearest-neighbor indices. -/
def resizeNearest (w h : Nat) (img : Image) : Image :=
  gridImage w h (fun x y =>
    img.pixAt (nearestIndex img.width w x) (nearestIndex img.height h y))

/-! ## slice_sprite_sheet (art_pipeline.py lines 87-100) -/

/-- `slice_sprite_sheet`: with `frame_count = 0` the Python computation
`sheet.width // frame_count` raises `ZeroDivisionError` (modelled as
`none`); otherwise frame `i` (for `i = 0 .. frame_count - 1`) is the crop
`(i * fw, 0, (i + 1) * fw, height)` where `fw = width // frame_count`. -/
def sliceSpriteSheet (sheet : Image) (frameCount : Nat) : Option (List Image) :=
  if frameCount = 0 then none
  else some ((List.range frameCount).map (fun i =>
    sheet.crop (i * (sheet.width / frameCount)) 0
      ((i + 1) * (sheet.width / frameCount)) sheet.height))

/-- An image with all columns at index `k` and beyond removed (used to state
that `slice_sprite_sheet` never reads the rightmost `width mod frame_count`
columns). -/
def Image.truncCols (img : Image) (k : Nat) : Image where
  width := min k img.width
  rows := img.rows.map (List.take k)
  hrect := by
    intro row hrow
    rcases List.mem_map.mp hrow with ⟨r0, hr0, rfl⟩
    simp [img.hrect r0 hr0]

/-! ## mirror_horizontal (art_pipeline.py lines 103-108) -/

/-- `mirror_horizontal`: PIL's `transpose(FLIP_LEFT_RIGHT)` reverses every
row of pixels. -/
def mirrorHorizontal (img : Image) : Image where
  width := img.width
  rows := img.rows.map List.reverse
  hrect := by
    intro row hrow
    rcases List.mem_map.mp hrow with ⟨r0, hr0, rfl⟩
    simp [img.hrect r0 hr0]

/-! ## generate_beans.py -/

/-- One element of a candidate's `parts` list in the Gemini response: either
an `inlineData` part carrying base64 image data, or a `text` part. -/
inductive GenPart where
  | inlineData (data : String)
  | textPart (text : String)

/-- One candidate of the response. `parts = none` models a candidate for
which `"content" in candidate and "parts" in candidate["content"]` is
false. -/
structure GenCandidate where
  parts : Option (List GenPart)

/-- The decoded JSON response body. `candidates = none` models a response
without a `"candidates"` key. -/
structure GenResponse where
  candidates : Option (List GenCandidate)

/-- The outcome of the single `urllib.request.urlopen` call: a decoded JSON
body, an `urllib.error.HTTPError`, or any other exception. -/
inductive HttpResult where
  | success (response : GenResponse)
  | httpError (code : Nat) (body : String)
  | requestFailed (msg : String)

/-- What the script leaves behind: the process exit code, the base64 payload
whose decoding was written to the output PNG (`none` when no file was
written), and the lines printed to stdout. -/
structure GenOutcome where
  exitCode : Nat
  writtenData : Option String
  prints : List String

/-- The api-key scan over the `.env` lines: the first line starting with
`GEMINI_API_KEY=` yields everything after the first `=` of the stripped
line (`line.strip().split("=", 1)[1]`); a missing line, or an empty value
(falsy in `if not api_key`), yields `none`. -/
def apiKeyOf (envLines : List String) : Option String :=
  match envLines.find? (fun l => l.startsWith "GEMINI_API_KEY=") with
  | none => none
  | some l =>
    let v := match l.trim.splitOn "=" with
      | [] => ""
      | _ :: rest => String.intercalate "=" rest
    if v = "" then none else some v

/-- The inner `for part in candidate["content"]["parts"]` loop: the first
`inlineData` payload, if any (text parts are printed and skipped; the loop
breaks after saving the first image). -/
def firstInlineData (parts : List GenPart) : Option String :=
  match parts with
  | [] => none
  | .inlineData d :: _ => some d
  | .textPart _ :: rest => firstInlineData rest

/-- The `for candidate in result["candidates"]` loop: the first candidate
with a usable parts list containing an `inlineData` part wins (the outer
loop breaks once `image_saved` is set). -/
def extractImage (cs : List GenCandidate) : Option String :=
  match cs with
  | [] => none
  | c :: rest =>
    match c.parts with
    | none => extractImage rest
    | some ps =>
      match firstInlineData ps with
      | none => extractImage rest
      | some d => some d

/-- The whole `generate_beans.py` script as a function of its two external
inputs, the `.env` lines and the HTTP call's outcome.  Every `sys.exit(1)`
path produces exit code 1 and writes no file; the success path writes the
decoded payload once and falls off the end of the script (exit code 0). -/
def generateBeans (envLines : List String) (http : HttpResult) : GenOutcome :=
  match apiKeyOf envLines with
  | none => ⟨1, none, ["ERROR: GEMINI_API_KEY not found in .env"]⟩
  | some _ =>
    let progress := ["Calling Gemini API to generate B3ANS canonical sprite...",
                     "This may take 15-30 seconds..."]
    match http with
    | .httpError code body =>
      ⟨1, none, progress ++ ["API Error " ++ toString code ++ ": " ++ body]⟩
    | .requestFailed msg =>
      ⟨1, none, progress ++ ["Request failed: " ++ msg]⟩
    | .success response =>
      match extractImage (response.candidates.getD []) with
      | some d =>
        ⟨0, some d, progress ++ ["Saved B3ANS sprite to: <output_path>",
          "B3ANS v1 canonical sprite generated successfully!"]⟩
      | none =>
        ⟨1, none, progress ++ ["ERROR: No image was generated. Full response:"]⟩

/-! ## Helper lemmas -/

theorem Image.ext_rows {img img' : Image} (hw : img.width = img'.width)
    (hr : img.rows = img'.rows) : img = img' := by
  cases img; cases img'; cases hw; cases hr; rfl

theorem pixAt_chromaKey (t : Int) (img : Image) (x y : Nat)
    (hx : x < img.width) (hy : y < img.height) :
    (chromaKeyMagenta t img).pixAt x y = chromaPixel t (img.pixAt x y) := by
  unfold Image.pixAt chromaKeyMagenta
  cases hrow : img.rows[y]? with
  | none =>
    have : img.rows.length ≤ y := List.getElem?_eq_none_iff.mp hrow
    have hy' : y < img.rows.length := hy
    omega
  | some row =>
    have hmem : row ∈ img.rows := List.getElem?_mem hrow
    have hlen : row.length = img.width := img.hrect _ hmem
    have hx' : x < row.length := hlen ▸ hx
    simp [List.getD_eq_getElem?_getD, List.getElem?_map, hrow,
      List.getElem?_eq_getElem hx']

theorem gridImage_height (w h : Nat) (f : Nat → Nat → Pixel) :
    (gridImage w h f).height = h := by
  simp [gridImage, Image.height]

theorem pixAt_gridImage (w h : Nat) (f : Nat → Nat → Pixel) (x y : Nat)
    (hx : x < w) (hy : y < h) : (gridImage w h f).pixAt x y = f x y := by
  unfold gridImage Image.pixAt
  simp [List.getD_eq_getElem?_getD, List.getElem?_map, List.getElem?_range,
    hx, hy]

theorem pixAt_truncCols (img : Image) (k x y : Nat) (hx : x < k) :
    (img.truncCols k).pixAt x y = img.pixAt x y := by
  unfold Image.truncCols Image.pixAt
  cases hrow : img.rows[y]? with
  | none => simp [List.getD_eq_getElem?_getD, List.getElem?_map, hrow]
  | some row =>
    simp [List.getD_eq_getElem?_getD, List.getElem?_map, hrow,
      List.getElem?_take, hx]

theorem foldr_min_le_init (l : List Nat) (i : Nat) : l.foldr min i ≤ i := by
  induction l with
  | nil => exact Nat.le_refl i
  | cons a t ih => exact le_trans (min_le_right a _) ih

theorem le_foldr_max (l : List Nat) (i x : Nat) (hx : x ∈ l) :
    x ≤ l.foldr max i := by
  induction l with
  | nil => cases hx
  | cons a t ih =>
    rcases List.mem_cons.mp hx with h | h
    · subst h; exact le_max_left x _
    · exact le_trans (ih h) (le_max_right a _)

/-- A bounding box returned by `getbbox` is non-degenerate: the exclusive
right/lower edges strictly exceed the left/upper ones. -/
theorem getbbox_lt (img : Image) (l u r d : Nat)
    (h : img.getbbox = some (l, u, r, d)) : l < r ∧ u < d := by
  unfold Image.getbbox at h
  revert h
  cases hcc : img.contentCoords with
  | nil => intro h; cases h
  | cons c cs =>
    intro h
    injection h with h'
    simp only [Prod.mk.injEq] at h'
    obtain ⟨h1, h2, h3, h4⟩ := h'
    constructor
    · have hle : l ≤ c.1 := h1 ▸ foldr_min_le_init _ _
      have hge : c.1 ≤ ((c :: cs).map Prod.fst).foldr max 0 :=
        le_foldr_max _ _ _ (List.mem_map.mpr ⟨c, List.mem_cons_self c cs, rfl⟩)
      omega
    · have hle : u ≤ c.2 := h2 ▸ foldr_min_le_init _ _
      have hge : c.2 ≤ ((c :: cs).map Prod.snd).foldr max 0 :=
        le_foldr_max _ _ _ (List.mem_map.mpr ⟨c, List.mem_cons_self c cs, rfl⟩)
      omega

/-! ## Claim theorems -/

/-- C1: for every image and tolerance `t`, every pixel whose channels
satisfy `r > 255 - t`, `g < t` and `b > 255 - t` (the core magenta mask)
has RGBA `(0, 0, 0, 0)` in the output of `chroma_key_magenta`. -/
theorem chroma_key_magenta_transparent (t : Int) (img : Image) (x y : Nat)
    (hx : x < img.width) (hy : y < img.height)
    (hmask : magentaMask t (img.pixAt x y)) :
    (chromaKeyMagenta t img).pixAt x y = ⟨0, 0, 0, 0⟩ := by
  rw [pixAt_chromaKey t img x y hx hy]
  unfold chromaPixel
  rw [if_pos hmask]

theorem chroma_key_magenta_transparent_witness :
    0 < magentaDot.width ∧ 0 < magentaDot.height ∧
      magentaMask 60 (magentaDot.pixAt 0 0) ∧
      (chromaKeyMagenta 60 magentaDot).pixAt 0 0 = ⟨0, 0, 0, 0⟩ :=
  ⟨by decide, by decide, by decide,
    chroma_key_magenta_transparent 60 magentaDot 0 0 (by decide) (by decide)
      (by decide)⟩

/-- C2 fails as stated: at tolerance 60 there is no distance threshold (here
as a threshold on the squared distance, which any real threshold on the
distance induces) such that a pixel is made fully transparent exactly when
its distance to pure magenta is below it.  The pixel `(196, 59, 196)` at
squared distance 10443 is made transparent while `(255, 60, 255)` at
squared distance 3600 is not. -/
theorem chroma_key_not_distance_threshold :
    ¬ ∃ thrSq : Int, ∀ p : Pixel,
      (chromaPixel 60 p = ⟨0, 0, 0, 0⟩ ↔ sqDistMagenta p < thrSq) := by
  rintro ⟨thr, h⟩
  have h1 : sqDistMagenta ⟨196, 59, 196, 255⟩ < thr :=
    (h ⟨196, 59, 196, 255⟩).mp (by decide)
  have h2 : sqDistMagenta ⟨196, 59, 196, 255⟩ = 10443 := by decide
  have h3 : sqDistMagenta ⟨255, 60, 255, 255⟩ = 3600 := by decide
  have h4 : chromaPixel 60 ⟨255, 60, 255, 255⟩ = ⟨0, 0, 0, 0⟩ :=
    (h ⟨255, 60, 255, 255⟩).mpr (by omega)
  exact absurd h4 (by decide)

/-- C2 amended: full transparency is decided by the per-channel box test
`r > 255 - t ∧ g < t ∧ b > 255 - t`, not by a Euclidean-distance threshold:
a pixel's output is `(0, 0, 0, 0)` exactly when it is in the core magenta
mask, or was already `(0, 0, 0, 0)` and lies outside the edge band (the
Euclidean distance to magenta only sets the partial alpha of edge
pixels). -/
theorem chroma_key_transparent_iff_mask (t : Int) (p : Pixel) :
    chromaPixel t p = ⟨0, 0, 0, 0⟩ ↔
      (magentaMask t p ∨ (¬ edgeMask t p ∧ p = ⟨0, 0, 0, 0⟩)) := by
  unfold chromaPixel
  split_ifs with h1 h2
  · simp [h1]
  · constructor
    · intro he
      have : min (p.g + 30) 255 = 0 := congrArg Pixel.g he
      omega
    · rintro (hm | ⟨hne, _⟩)
      · exact absurd hm h1
      · exact absurd h2 hne
  · constructor
    · intro hp; exact Or.inr ⟨h2, hp⟩
    · rintro (hm | ⟨_, hp⟩)
      · exact absurd hm h1
      · exact hp

/-- C6: `mirror_horizontal` is self-inverse: flipping twice returns an
image identical to the original. -/
theorem mirror_horizontal_involutive (img : Image) :
    mirrorHorizontal (mirrorHorizontal img) = img := by
  apply Image.ext_rows
  · rfl
  · simp [mirrorHorizontal, List.map_map, Function.comp_def]

/-- C8: a pixel outside the core magenta mask whose Euclidean distance to
pure magenta is at least `2 * tolerance` (so outside the edge band) is left
completely unchanged by `chroma_key_magenta`. -/
theorem chroma_key_far_pixels_unchanged (t : Int) (p : Pixel)
    (hmask : ¬ magentaMask t p) (hfar : 4 * t * t ≤ sqDistMagenta p) :
    chromaPixel t p = p := by
  unfold chromaPixel
  rw [if_neg hmask, if_neg]
  rintro ⟨_, hd⟩
  omega

/-- C9: on a fully transparent image (every pixel has alpha 0, so
`getbbox()` is `None`), `trim_to_content` saves the input unchanged — same
dimensions and pixels — instead of failing or producing an empty image. -/
theorem trim_transparent_identity (img : Image) (p : Nat)
    (htrans : ∀ x y, x < img.width → y < img.height → (img.pixAt x y).a = 0) :
    img.getbbox = none ∧ trimToContent p img = img := by
  have hcc : img.contentCoords = [] := by
    apply List.eq_nil_iff_forall_not_mem.mpr
    rintro ⟨x, y⟩ hz
    rcases List.mem_flatMap.mp hz with ⟨y', hy', hz'⟩
    rcases List.mem_map.mp hz' with ⟨x', hx', _⟩
    rcases List.mem_filter.mp hx' with ⟨hxr, hnz⟩
    have hy'' : y' < img.height := List.mem_range.mp hy'
    have hx'' : x' < img.width := List.mem_range.mp hxr
    have hz0 := htrans x' y' hx'' hy''
    simp only [ne_eq, decide_not, Bool.not_eq_eq_eq_not, Bool.not_true,
      decide_eq_false_iff_not, Decidable.not_not] at hnz
    exact absurd hz0 (by simpa using hnz)
  have hbb : img.getbbox = none := by
    unfold Image.getbbox
    rw [hcc]
  exact ⟨hbb, by unfold trimToContent; rw [hbb]⟩

theorem trim_transparent_identity_witness :
    clearDot.getbbox = none ∧ trimToContent 8 clearDot = clearDot :=
  trim_transparent_identity clearDot 8 (fun x y hx hy => by
    have hx0 : x = 0 := by
      have : x < 1 := hx
      omega
    have hy0 : y = 0 := by
      have : y < 1 := hy
      omega
    subst hx0; subst hy0; rfl)

/-- C4 fails as stated: for the 1×1 image whose single pixel is content,
with padding 8 the bounding box is `(0, 0, 1, 1)` but the trimmed output is
1 pixel wide, not `bbox width + 2 * padding = 17`: the padded box is
clamped to the image bounds. -/
theorem trim_padding_clamped_cex :
    magentaDot.getbbox = some (0, 0, 1, 1) ∧
      (trimToContent 8 magentaDot).width ≠ (1 - 0) + 2 * 8 := by
  constructor
  · decide
  · decide

/-- C4 amended: `trim_to_content` crops to the content bounding box
expanded by `padding` on each side and clamped to the image bounds, so the
output is `min(width, right + p) - max(0, left - p)` wide and
`min(height, lower + p) - max(0, upper - p)` tall; in particular it is
`(bbox width + 2 p) × (bbox height + 2 p)` whenever the expanded box fits
inside the image. -/
theorem trim_to_content_bbox (img : Image) (p l u r d : Nat)
    (hbb : img.getbbox = some (l, u, r, d)) :
    trimToContent p img =
        img.crop (l - p) (u - p) (min img.width (r + p))
          (min img.height (d + p)) ∧
      (trimToContent p img).width = min img.width (r + p) - (l - p) ∧
      (trimToContent p img).height = min img.height (d + p) - (u - p) ∧
      (p ≤ l → p ≤ u → r + p ≤ img.width → d + p ≤ img.height →
        (trimToContent p img).width = (r - l) + 2 * p ∧
        (trimToContent p img).height = (d - u) + 2 * p) := by
  have hlt := getbbox_lt img l u r d hbb
  have ht : trimToContent p img =
      img.crop (l - p) (u - p) (min img.width (r + p))
        (min img.height (d + p)) := by
    unfold trimToContent
    rw [hbb]
  have hw : (trimToContent p img).width = min img.width (r + p) - (l - p) := by
    rw [ht]; rfl
  have hh : (trimToContent p img).height =
      min img.height (d + p) - (u - p) := by
    rw [ht]
    simp [Image.crop, gridImage, Image.height]
  refine ⟨ht, hw, hh, fun h1 h2 h3 h4 => ⟨?_, ?_⟩⟩
  · rw [hw]; omega
  · rw [hh]; omega

theorem trim_to_content_bbox_witness :
    trimToContent 0 magentaDot =
        magentaDot.crop (0 - 0) (0 - 0) (min magentaDot.width (1 + 0))
          (min magentaDot.height (1 + 0)) ∧
      (trimToContent 0 magentaDot).width =
        min magentaDot.width (1 + 0) - (0 - 0) ∧
      (trimToContent 0 magentaDot).height =
        min magentaDot.height (1 + 0) - (0 - 0) ∧
      (0 ≤ 0 → 0 ≤ 0 → 1 + 0 ≤ magentaDot.width → 1 + 0 ≤ magentaDot.height →
        (trimToContent 0 magentaDot).width = (1 - 0) + 2 * 0 ∧
        (trimToContent 0 magentaDot).height = (1 - 0) + 2 * 0) :=
  trim_to_content_bbox magentaDot 0 0 0 1 1 (by decide)

theorem chroma_key_far_pixels_unchanged_witness :
    ¬ magentaMask 60 ⟨0, 0, 0, 255⟩ ∧
      4 * 60 * 60 ≤ sqDistMagenta ⟨0, 0, 0, 255⟩ ∧
      chromaPixel 60 ⟨0, 0, 0, 255⟩ = ⟨0, 0, 0, 255⟩ :=
  ⟨by decide, by decide,
    chroma_key_far_pixels_unchanged 60 ⟨0, 0, 0, 255⟩ (by decide) (by decide)⟩

/-- C5: for positive target dimensions `w × h` (and a non-empty source),
`resize_nearest` produces an image of exactly `w × h` pixels, and every
output pixel is the value of the in-bounds nearest-neighbor source pixel —
no blended values. -/
theorem resize_nearest_spec (img : Image) (w h : Nat)
    (hw : 0 < w) (hh : 0 < h) (hsw : 0 < img.width) (hsh : 0 < img.height) :
    (resizeNearest w h img).width = w ∧
      (resizeNearest w h img).height = h ∧
      ∀ x y, x < w → y < h →
        nearestIndex img.width w x < img.width ∧
        nearestIndex img.height h y < img.height ∧
        (resizeNearest w h img).pixAt x y =
          img.pixAt (nearestIndex img.width w x)
            (nearestIndex img.height h y) := by
  have hbound : ∀ src dst i : Nat, 0 < src → 0 < dst → i < dst →
      nearestIndex src dst i < src := by
    intro src dst i hsrc hdst hi
    unfold nearestIndex
    apply Nat.div_lt_of_lt_mul
    calc (2 * i + 1) * src < (2 * dst) * src := by
          apply Nat.mul_lt_mul_of_lt_of_le (by omega) (le_refl src) hsrc
      _ = 2 * dst * src := rfl
  refine ⟨rfl, gridImage_height .., fun x y hx hy =>
    ⟨hbound _ _ _ hsw hw hx, hbound _ _ _ hsh hh hy,
      pixAt_gridImage _ _ _ _ _ hx hy⟩⟩

theorem resize_nearest_spec_witness :
    (resizeNearest 2 2 magentaDot).width = 2 ∧
      (resizeNearest 2 2 magentaDot).height = 2 ∧
      ∀ x y, x < 2 → y < 2 →
        nearestIndex magentaDot.width 2 x < magentaDot.width ∧
        nearestIndex magentaDot.height 2 y < magentaDot.height ∧
        (resizeNearest 2 2 magentaDot).pixAt x y =
          magentaDot.pixAt (nearestIndex magentaDot.width 2 x)
            (nearestIndex magentaDot.height 2 y) :=
  resize_nearest_spec magentaDot 2 2 (by decide) (by decide) (by decide)
    (by decide)

/-- C3 fails as stated: at `frame_count = 0` the width computation
`sheet.width // frame_count` raises `ZeroDivisionError` (modelled as
`none`), so no frames are written and nothing is returned. -/
theorem slice_zero_frame_count_fails : sliceSpriteSheet stripThree 0 = none :=
  rfl

/-- C3 amended: for every sheet and every `frame_count = n ≥ 1`,
`slice_sprite_sheet` produces exactly `n` frames, frame `i` being the crop
of columns `[i * (W // n), (i + 1) * (W // n))` at full sheet height, each
of identical width `W // n`, and returns `n` (the length of the frame
list). -/
theorem slice_sprite_sheet_frames (sheet : Image) (n : Nat) (hn : 0 < n) :
    ∃ frames, sliceSpriteSheet sheet n = some frames ∧
      frames.length = n ∧
      ∀ i, i < n →
        frames.getD i sheet =
          sheet.crop (i * (sheet.width / n)) 0
            ((i + 1) * (sheet.width / n)) sheet.height ∧
        (frames.getD i sheet).width = sheet.width / n ∧
        (frames.getD i sheet).height = sheet.height := by
  refine ⟨(List.range n).map (fun i =>
    sheet.crop (i * (sheet.width / n)) 0
      ((i + 1) * (sheet.width / n)) sheet.height), ?_, ?_, ?_⟩
  · unfold sliceSpriteSheet
    rw [if_neg (Nat.pos_iff_ne_zero.mp hn)]
  · simp
  · intro i hi
    have hget : ((List.range n).map (fun i =>
        sheet.crop (i * (sheet.width / n)) 0
          ((i + 1) * (sheet.width / n)) sheet.height)).getD i sheet =
        sheet.crop (i * (sheet.width / n)) 0
          ((i + 1) * (sheet.width / n)) sheet.height := by
      simp [List.getD_eq_getElem?_getD, List.getElem?_map,
        List.getElem?_range, hi]
    refine ⟨hget, ?_, ?_⟩
    · rw [hget]
      show (i + 1) * (sheet.width / n) - i * (sheet.width / n) =
        sheet.width / n
      rw [Nat.succ_mul, Nat.add_sub_cancel_left]
    · rw [hget]
      unfold Image.crop
      rw [gridImage_height]
      exact Nat.sub_zero _

theorem slice_sprite_sheet_frames_witness :
    ∃ frames, sliceSpriteSheet stripThree 2 = some frames ∧
      frames.length = 2 ∧
      ∀ i, i < 2 →
        frames.getD i stripThree =
          stripThree.crop (i * (stripThree.width / 2)) 0
            ((i + 1) * (stripThree.width / 2)) stripThree.height ∧
        (frames.getD i stripThree).width = stripThree.width / 2 ∧
        (frames.getD i stripThree).height = stripThree.height :=
  slice_sprite_sheet_frames stripThree 2 (by decide)

/-- C10: `slice_sprite_sheet` requires `frame_count ≥ 1`: with
`frame_count = 0` the frame-width division fails; with `frame_count = n ≥ 1`
the operation is total; and the rightmost `width mod n` columns appear in no
output frame — removing them (`truncCols (n * (width / n))`) produces
exactly the same frames. -/
theorem slice_frame_count_safety (sheet : Image) (n : Nat) :
    sliceSpriteSheet sheet 0 = none ∧
      (0 < n → (sliceSpriteSheet sheet n).isSome) ∧
      (0 < n →
        sliceSpriteSheet (sheet.truncCols (n * (sheet.width / n))) n =
          sliceSpriteSheet sheet n) := by
  refine ⟨rfl, ?_, ?_⟩
  · intro hn
    unfold sliceSpriteSheet
    rw [if_neg (Nat.pos_iff_ne_zero.mp hn)]
    rfl
  · intro hn
    have hn' : n ≠ 0 := Nat.pos_iff_ne_zero.mp hn
    have hk : n * (sheet.width / n) ≤ sheet.width := by
      rw [Nat.mul_comm]
      exact Nat.div_mul_le_self sheet.width n
    have hwidth : (sheet.truncCols (n * (sheet.width / n))).width =
        n * (sheet.width / n) := min_eq_left hk
    have hfw : (sheet.truncCols (n * (sheet.width / n))).width / n =
        sheet.width / n := by
      rw [hwidth, Nat.mul_div_cancel_left _ hn]
    have hht : (sheet.truncCols (n * (sheet.width / n))).height =
        sheet.height := by
      simp [Image.truncCols, Image.height]
    unfold sliceSpriteSheet
    rw [if_neg hn', if_neg hn']
    congr 1
    apply List.map_congr_left
    intro i hi
    have hi' : i < n := List.mem_range.mp hi
    rw [hfw, hht]
    apply Image.ext_rows
    · rfl
    · unfold Image.crop gridImage
      apply List.map_congr_left
      intro i2 _
      apply List.map_congr_left
      intro j hj
      have hj' : j < (i + 1) * (sheet.width / n) - i * (sheet.width / n) :=
        List.mem_range.mp hj
      apply pixAt_truncCols
      have hmul : (i + 1) * (sheet.width / n) ≤ n * (sheet.width / n) :=
        Nat.mul_le_mul_right _ hi'
      omega

theorem slice_frame_count_safety_witness :
    sliceSpriteSheet stripThree 0 = none ∧
      (sliceSpriteSheet stripThree 2).isSome ∧
      sliceSpriteSheet (stripThree.truncCols (2 * (stripThree.width / 2))) 2 =
        sliceSpriteSheet stripThree 2 :=
  ⟨(slice_frame_count_safety stripThree 2).1,
    (slice_frame_count_safety stripThree 2).2.1 (by decide),
    (slice_frame_count_safety stripThree 2).2.2 (by decide)⟩

/-- C7: every failure case of `generate_beans.py` — api key missing (or
empty) in the `.env` file, an HTTP error (or any other request exception),
and a response with no image data — exits with the non-zero status 1,
writes no image file, and prints at least one message. -/
theorem generate_beans_failures (envLines : List String) (http : HttpResult) :
    (apiKeyOf envLines = none →
      (generateBeans envLines http).exitCode = 1 ∧
        (generateBeans envLines http).writtenData = none ∧
        (generateBeans envLines http).prints ≠ []) ∧
      (∀ code body, http = .httpError code body →
        (generateBeans envLines http).exitCode = 1 ∧
          (generateBeans envLines http).writtenData = none ∧
          (generateBeans envLines http).prints ≠ []) ∧
      (∀ msg, http = .requestFailed msg →
        (generateBeans envLines http).exitCode = 1 ∧
          (generateBeans envLines http).writtenData = none ∧
          (generateBeans envLines http).prints ≠ []) ∧
      (∀ resp, http = .success resp →
        extractImage (resp.candidates.getD []) = none →
        (generateBeans envLines http).exitCode = 1 ∧
          (generateBeans envLines http).writtenData = none ∧
          (generateBeans envLines http).prints ≠ []) := by
  refine ⟨?_, ?_, ?_, ?_⟩
  · intro hk
    simp [generateBeans, hk]
  · rintro code body rfl
    cases hk : apiKeyOf envLines <;> simp [generateBeans, hk]
  · rintro msg rfl
    cases hk : apiKeyOf envLines <;> simp [generateBeans, hk]
  · rintro resp rfl hni
    cases hk : apiKeyOf envLines <;> simp [generateBeans, hk, hni]

theorem generate_beans_failures_witness :
    (generateBeans [] (.success ⟨none⟩)).exitCode = 1 ∧
      (generateBeans [] (.success ⟨none⟩)).writtenData = none ∧
      (generateBeans [] (.success ⟨none⟩)).prints ≠ [] :=
  (generate_beans_failures [] (.success ⟨none⟩)).1 rfl
